import Mathlib

/-!
Verification of `cors_server.py`, a dual-backend dictionary lookup server.

The embedding is a shallow one:

* `unquoteList` models `urllib.parse.unquote` at the byte/ASCII level: a
  `%hh` escape (two hex digits) decodes to the character with that code,
  anything else passes through.  (Python additionally UTF-8-decodes multi
  byte sequences; the claims under verification only involve ASCII data,
  where the two agree.)
* `deriveWord` models lines 40-46 of `do_GET`:
  `path = unquote(self.path.lstrip('/'))` followed by stripping the
  `.json.deflate` suffix (13 characters) when present.
* HTTP responses are modelled as a `Response` record; `end_headers`
  (lines 25-30) unconditionally appends the four CORS/cache headers, so
  every response constructor here appends `corsHeaders` last.
* The SQLite backend is a `DBConn` whose parameterized point query may
  return a row, no row, or a driver error; the file backend is a
  `FileSystem` with an existence test and a fallible read.
* Startup (`__main__`, lines 112-146) is modelled as `startup`, a pure
  function from an `Env` (does the db file exist, what do open/count do,
  which ports are free) to the chosen connection plus the ordered list of
  observable startup events.
-/

namespace CorsServer

/-- Value of an ASCII hex digit, `none` when the character is not one. -/
def hexVal (c : Char) : Option Nat :=
  if '0' ≤ c ∧ c ≤ '9' then some (c.toNat - '0'.toNat)
  else if 'a' ≤ c ∧ c ≤ 'f' then some (c.toNat - 'a'.toNat + 10)
  else if 'A' ≤ c ∧ c ≤ 'F' then some (c.toNat - 'A'.toNat + 10)
  else none

/-- `urllib.parse.unquote` on a character list: `%hh` with two hex digits
decodes to the character with code `16*h1+h2`; an invalid escape is left
as-is (the `%` passes through and scanning resumes at the next char). -/
def unquoteList : List Char → List Char
  | [] => []
  | '%' :: h1 :: h2 :: rest =>
    match hexVal h1, hexVal h2 with
    | some a, some b => Char.ofNat (16 * a + b) :: unquoteList rest
    | _, _ => '%' :: unquoteList (h1 :: h2 :: rest)
  | c :: rest => c :: unquoteList rest

/-- `urllib.parse.unquote` on strings. -/
def pyUnquote (s : String) : String := ⟨unquoteList s.data⟩

/-- Python `str.lstrip('/')`: drops ALL leading `'/'` characters. -/
def lstripSlash (s : String) : String := ⟨s.data.dropWhile (· == '/')⟩

/-- The fixed suffix of line 43 (`'.json.deflate'`, 13 characters). -/
def jsonDeflateSuffix : String := ".json.deflate"

/-- Lines 40-46 of `do_GET`: `path = unquote(self.path.lstrip('/'))`,
then `path[:-13]` when `path.endswith('.json.deflate')`, else `path`. -/
def deriveWord (rawPath : String) : String :=
  let path := pyUnquote (lstripSlash rawPath)
  if jsonDeflateSuffix.data.isSuffixOf path.data then
    ⟨path.data.take (path.data.length - 13)⟩
  else path

/-- Response payload: raw bytes on success, an error page carrying the
`send_error` message on failure, empty for OPTIONS. -/
inductive Payload where
  | bytes (data : List Nat)
  | errorPage (msg : String)
  | empty
deriving DecidableEq

/-- An HTTP response frame: status, header list (in send order) and body. -/
structure Response where
  status : Nat
  headers : List (String × String)
  payload : Payload
deriving DecidableEq

/-- The four headers appended by the overridden `end_headers`
(lines 25-30), in source order.  `end_headers` runs on every response
path (`send_response`+`end_headers` and `send_error` both end with it),
so every constructor below appends these last. -/
def corsHeaders : List (String × String) :=
  [("Access-Control-Allow-Origin", "*"),
   ("Access-Control-Allow-Methods", "GET, OPTIONS"),
   ("Access-Control-Allow-Headers", "*"),
   ("Cache-Control", "no-store, no-cache, must-revalidate")]

/-- `self.send_error(code, msg)`: error status, the base library's error
headers, then the CORS headers via `end_headers`; the body is the error
page rendered from `msg`. -/
def sendError (code : Nat) (msg : String) : Response :=
  { status := code
    headers := [("Content-Type", "text/html;charset=utf-8"), ("Connection", "close")] ++ corsHeaders
    payload := Payload.errorPage msg }

/-- A 200 with `Content-Type: application/octet-stream`, `Content-Length`
set to the byte length, and the raw bytes as body (lines 61-65 / 80-84). -/
def okResponse (data : List Nat) : Response :=
  { status := 200
    headers := [("Content-Type", "application/octet-stream"),
                ("Content-Length", toString data.length)] ++ corsHeaders
    payload := Payload.bytes data }

/-- The global SQLite connection: a parameterized point query
`SELECT json_data FROM entries WHERE word = ?` that returns a row, no
row, or fails at the driver level. -/
structure DBConn where
  query : String → Except String (Option (List Nat))

/-- The working directory seen by the file backend: existence test
(`os.path.exists`) and fallible whole-file read (`open` + `read`). -/
structure FileSystem where
  fileExists : String → Bool
  readFile : String → Except String (List Nat)

/-- `do_OPTIONS` (lines 32-34): `send_response(200)` then `end_headers`. -/
def do_OPTIONS : Response :=
  { status := 200, headers := corsHeaders, payload := Payload.empty }

/-- `do_GET` (lines 36-91).  `conn` is the global `db_connection`;
`fs` the working directory; `rawPath` is `self.path`. -/
def do_GET (conn : Option DBConn) (fs : FileSystem) (rawPath : String) : Response :=
  let word := deriveWord rawPath
  if word = "" then sendError 400 "No word specified"
  else
    match conn with
    | some db =>
      match db.query word with
      | Except.ok (some row) => okResponse row
      | Except.ok none => sendError 404 ("Word \"" ++ word ++ "\" not found in database")
      | Except.error e => sendError 500 ("Database error: " ++ e)
    | none =>
      let filePath := word ++ jsonDeflateSuffix
      if fs.fileExists filePath then
        match fs.readFile filePath with
        | Except.ok data => okResponse data
        | Except.error e => sendError 500 ("File read error: " ++ e)
      else sendError 404 ("Word \"" ++ word ++ "\" not found")

/-- `find_available_port` (lines 97-110): try `start, start+1, ...` for
`attempts` ports; `free p = true` models a successful bind of port `p`;
return the first free port, `none` models the `RuntimeError`
(NoPortAvailable) raised when the whole range is taken. -/
def findAvailablePort (free : Nat → Bool) : Nat → Nat → Option Nat
  | _, 0 => none
  | startPort, n + 1 =>
    if free startPort then some startPort
    else findAvailablePort free (startPort + 1) n

theorem findAvailablePort_some (free : Nat → Bool) :
    ∀ (n startPort p : Nat), findAvailablePort free startPort n = some p →
      startPort ≤ p ∧ p < startPort + n ∧ free p = true ∧
        ∀ q, startPort ≤ q → q < p → free q = false := by
  intro n
  induction n with
  | zero => intro s p h; simp [findAvailablePort] at h
  | succ n ih =>
    intro s p h
    by_cases hs : free s = true
    · simp [findAvailablePort, hs] at h
      subst h
      exact ⟨le_refl s, by omega, hs, fun q hq hq' => absurd hq (by omega)⟩
    · simp [findAvailablePort, hs] at h
      obtain ⟨h1, h2, h3, h4⟩ := ih (s + 1) p h
      refine ⟨by omega, by omega, h3, fun q hq hq' => ?_⟩
      by_cases hqs : q = s
      · subst hqs; simpa using hs
      · exact h4 q (by omega) hq'

theorem findAvailablePort_none (free : Nat → Bool) :
    ∀ (n startPort : Nat), (∀ q, startPort ≤ q → q < startPort + n → free q = false) →
      findAvailablePort free startPort n = none := by
  intro n
  induction n with
  | zero => intro s _; rfl
  | succ n ih =>
    intro s h
    have hs : free s = false := h s (le_refl s) (by omega)
    simp [findAvailablePort, hs]
    exact ih (s + 1) (fun q hq hq' => h q (by omega) (by omega))

/-- C5: `find_available_port(start, max_attempts)` probes
`start, ..., start+max_attempts-1` in order, returns the first port that
binds, and fails (`none`, modelling `NoPortAvailable`) when the whole
range is taken; concretely, with 8000..8004 occupied and 8005 free it
returns 8005. -/
theorem find_available_port_spec :
    (∀ (free : Nat → Bool) (startPort n p : Nat),
      (findAvailablePort free startPort n = some p →
        startPort ≤ p ∧ p < startPort + n ∧ free p = true ∧
          ∀ q, startPort ≤ q → q < p → free q = false) ∧
      ((∀ q, startPort ≤ q → q < startPort + n → free q = false) →
        findAvailablePort free startPort n = none)) ∧
    findAvailablePort (fun q => !(decide (8000 ≤ q) && decide (q ≤ 8004))) 8000 100 = some 8005 := by
  refine ⟨fun free s n p => ⟨findAvailablePort_some free n s p, findAvailablePort_none free n s⟩, ?_⟩
  decide

/-- Witness for C5: the port allocator applied at concrete inputs, with
both hypotheses discharged. -/
theorem find_available_port_spec_witness :
    findAvailablePort (fun _ => false) 8000 3 = none ∧
    (findAvailablePort (fun _ => true) 9000 5 = some 9000 → 9000 ≤ 9000) :=
  ⟨(find_available_port_spec.1 (fun _ => false) 8000 3 0).2 (fun _ _ _ => rfl),
   fun h => ((find_available_port_spec.1 (fun _ => true) 9000 5 9000).1 h).1⟩

/-- C8: a GET whose derived key is empty gets a 400 "No word specified",
for every backend state (database connection or not, any filesystem):
the response is the same constant, so no backend is consulted. -/
theorem empty_key_400 :
    ∀ (conn : Option DBConn) (fs : FileSystem) (p : String),
      deriveWord p = "" → do_GET conn fs p = sendError 400 "No word specified" := by
  intro conn fs p h
  simp [do_GET, h]

/-- Witness for C8: both `/` and `/.json.deflate` derive the empty key
and get the 400, here with no connection and an empty directory. -/
theorem empty_key_400_witness :
    do_GET none ⟨fun _ => false, fun _ => Except.error "io"⟩ "/" =
      sendError 400 "No word specified" ∧
    do_GET (some ⟨fun _ => Except.ok (some [1])⟩ : Option DBConn)
        ⟨fun _ => true, fun _ => Except.ok [1]⟩ "/.json.deflate" =
      sendError 400 "No word specified" :=
  ⟨empty_key_400 none _ "/" (by decide),
   empty_key_400 _ _ "/.json.deflate" (by decide)⟩

/-- The four headers of the overridden `end_headers`, as a membership
predicate on a header list. -/
def hasCorsHeaders (h : List (String × String)) : Prop :=
  ("Access-Control-Allow-Origin", "*") ∈ h ∧
  ("Access-Control-Allow-Methods", "GET, OPTIONS") ∈ h ∧
  ("Access-Control-Allow-Headers", "*") ∈ h ∧
  ("Cache-Control", "no-store, no-cache, must-revalidate") ∈ h

theorem hasCors_sendError (c : Nat) (m : String) : hasCorsHeaders (sendError c m).headers := by
  simp [sendError, corsHeaders, hasCorsHeaders]

theorem hasCors_okResponse (d : List Nat) : hasCorsHeaders (okResponse d).headers := by
  simp [okResponse, corsHeaders, hasCorsHeaders]

/-- C4: every response the server emits — 200, 400, 404, 500 and OPTIONS
alike, on every branch of `do_GET` — carries the four CORS/cache headers
with exactly the specified values. -/
theorem all_responses_carry_cors :
    (∀ (conn : Option DBConn) (fs : FileSystem) (p : String),
      hasCorsHeaders (do_GET conn fs p).headers) ∧
    hasCorsHeaders do_OPTIONS.headers := by
  refine ⟨fun conn fs p => ?_, by simp [do_OPTIONS, corsHeaders, hasCorsHeaders]⟩
  unfold do_GET
  dsimp only
  repeat' split
  all_goals first
    | exact hasCors_sendError _ _
    | exact hasCors_okResponse _

/-- C9: in file mode the existence check comes first — a missing file is
a 404 naming the word, a failing read of an existing file is a 500
(never a 404), and a successful read is a 200 with
`Content-Type: application/octet-stream`, `Content-Length` equal to the
byte length, and the raw bytes as body. -/
theorem file_backend_lookup :
    ∀ (fs : FileSystem) (p : String),
      deriveWord p ≠ "" →
      (fs.fileExists (deriveWord p ++ jsonDeflateSuffix) = false →
        do_GET none fs p = sendError 404 ("Word \"" ++ deriveWord p ++ "\" not found")) ∧
      (∀ e, fs.fileExists (deriveWord p ++ jsonDeflateSuffix) = true →
        fs.readFile (deriveWord p ++ jsonDeflateSuffix) = Except.error e →
        do_GET none fs p = sendError 500 ("File read error: " ++ e) ∧
        (do_GET none fs p).status ≠ 404) ∧
      (∀ data, fs.fileExists (deriveWord p ++ jsonDeflateSuffix) = true →
        fs.readFile (deriveWord p ++ jsonDeflateSuffix) = Except.ok data →
        do_GET none fs p = okResponse data ∧
        (do_GET none fs p).status = 200 ∧
        ("Content-Type", "application/octet-stream") ∈ (do_GET none fs p).headers ∧
        ("Content-Length", toString data.length) ∈ (do_GET none fs p).headers ∧
        (do_GET none fs p).payload = Payload.bytes data) := by
  intro fs p h
  refine ⟨fun hex => ?_, fun e hex hrd => ?_, fun data hex hrd => ?_⟩
  · simp [do_GET, h, hex]
  · simp [do_GET, h, hex, hrd, sendError]
  · simp [do_GET, h, hex, hrd, okResponse]

/-- Witness for C9: the three file-mode branches at a concrete word. -/
theorem file_backend_lookup_witness :
    do_GET none ⟨fun _ => false, fun _ => Except.error "e"⟩ "/w" =
      sendError 404 ("Word \"" ++ deriveWord "/w" ++ "\" not found") ∧
    do_GET none ⟨fun _ => true, fun _ => Except.error "boom"⟩ "/w" =
      sendError 500 ("File read error: " ++ "boom") ∧
    do_GET none ⟨fun _ => true, fun _ => Except.ok [7, 8]⟩ "/w" = okResponse [7, 8] :=
  ⟨(file_backend_lookup ⟨fun _ => false, fun _ => Except.error "e"⟩ "/w" (by decide)).1 rfl,
   ((file_backend_lookup ⟨fun _ => true, fun _ => Except.error "boom"⟩ "/w" (by decide)).2.1
      "boom" rfl rfl).1,
   ((file_backend_lookup ⟨fun _ => true, fun _ => Except.ok [7, 8]⟩ "/w" (by decide)).2.2
      [7, 8] rfl rfl).1⟩

/-- C10: with a database connection open, the response never depends on
the filesystem — a key missing from the database is a 404 even when a
matching `<key>.json.deflate` file exists — and the filesystem branch
runs only when no connection exists. -/
theorem db_dispatch_exclusive :
    ∀ (db : DBConn) (fs fs2 : FileSystem) (p : String),
      do_GET (some db) fs p = do_GET (some db) fs2 p ∧
      (deriveWord p ≠ "" → db.query (deriveWord p) = Except.ok none →
        do_GET (some db) fs p =
          sendError 404 ("Word \"" ++ deriveWord p ++ "\" not found in database")) := by
  intro db fs fs2 p
  refine ⟨rfl, fun h hq => ?_⟩
  simp [do_GET, h, hq]

/-- Witness for C10: the database misses the word while the filesystem
does have the matching file, yet the answer is the database 404. -/
theorem db_dispatch_exclusive_witness :
    do_GET (some ⟨fun _ => Except.ok none⟩) ⟨fun _ => true, fun _ => Except.ok [9]⟩ "/w" =
      sendError 404 ("Word \"" ++ deriveWord "/w" ++ "\" not found in database") :=
  (db_dispatch_exclusive ⟨fun _ => Except.ok none⟩ ⟨fun _ => true, fun _ => Except.ok [9]⟩
    ⟨fun _ => true, fun _ => Except.ok [9]⟩ "/w").2 (by decide) rfl

/-- C3 counterexample: in file mode, the 404 for the missing word
`hello` carries the message `Word "hello" not found`, which names the
word but contains neither "file" nor "database" — it does not identify
the source that was searched. -/
theorem notfound_message_counterexample :
    do_GET none ⟨fun _ => false, fun _ => Except.error "io"⟩ "/hello" =
      sendError 404 "Word \"hello\" not found" ∧
    ¬ ("file".data <:+: "Word \"hello\" not found".data) ∧
    ¬ ("database".data <:+: "Word \"hello\" not found".data) := by
  refine ⟨by decide, by decide, by decide⟩

theorem db_msg_decomp (w : String) :
    ("Word \"" ++ w ++ "\" not found in database").data =
      ("Word \"".data ++ w.data ++ "\" not found in ".data) ++ "database".data ++ [] := by
  have h : "\" not found in database".data = "\" not found in ".data ++ "database".data := by
    decide
  simp [String.data_append, h]

theorem file_msg_decomp (w : String) :
    ("Word \"" ++ w ++ "\" not found").data =
      "Word \"".data ++ w.data ++ "\" not found".data := by
  simp [String.data_append]

/-- C3 amended: a lookup miss yields a 404 whose message names the
missing word; in database mode the message additionally identifies the
database as the searched source, while in file mode it names only the
word. -/
theorem notfound_message :
    ∀ (db : DBConn) (fs : FileSystem) (p : String),
      deriveWord p ≠ "" →
      (db.query (deriveWord p) = Except.ok none →
        (do_GET (some db) fs p).status = 404 ∧
        (do_GET (some db) fs p).payload =
          Payload.errorPage ("Word \"" ++ deriveWord p ++ "\" not found in database") ∧
        (deriveWord p).data <:+: ("Word \"" ++ deriveWord p ++ "\" not found in database").data ∧
        "database".data <:+: ("Word \"" ++ deriveWord p ++ "\" not found in database").data) ∧
      (fs.fileExists (deriveWord p ++ jsonDeflateSuffix) = false →
        (do_GET none fs p).status = 404 ∧
        (do_GET none fs p).payload =
          Payload.errorPage ("Word \"" ++ deriveWord p ++ "\" not found") ∧
        (deriveWord p).data <:+: ("Word \"" ++ deriveWord p ++ "\" not found").data) := by
  intro db fs p h
  constructor
  · intro hq
    refine ⟨by simp [do_GET, h, hq, sendError], by simp [do_GET, h, hq, sendError], ?_, ?_⟩
    · refine ⟨"Word \"".data, "\" not found in database".data, ?_⟩
      simp [String.data_append]
    · refine ⟨"Word \"".data ++ (deriveWord p).data ++ "\" not found in ".data, [], ?_⟩
      exact (db_msg_decomp (deriveWord p)).symm
  · intro hex
    refine ⟨by simp [do_GET, h, hex, sendError], by simp [do_GET, h, hex, sendError], ?_⟩
    refine ⟨"Word \"".data, "\" not found".data, ?_⟩
    simp [String.data_append]

/-- Witness for C3 amended: concrete misses in both modes. -/
theorem notfound_message_witness :
    (do_GET (some ⟨fun _ => Except.ok none⟩) ⟨fun _ => false, fun _ => Except.error "io"⟩
        "/x").status = 404 ∧
    (do_GET none ⟨fun _ => false, fun _ => Except.error "io"⟩ "/x").status = 404 :=
  ⟨((notfound_message ⟨fun _ => Except.ok none⟩ ⟨fun _ => false, fun _ => Except.error "io"⟩
      "/x" (by decide)).1 rfl).1,
   ((notfound_message ⟨fun _ => Except.ok none⟩ ⟨fun _ => false, fun _ => Except.error "io"⟩
      "/x" (by decide)).2 rfl).1⟩

/-- The derivation exactly as claim C2 words it: percent-decode the raw
path, THEN strip a SINGLE leading separator, then strip the suffix. -/
def claimDeriveKey (rawPath : String) : String :=
  let decoded := pyUnquote rawPath
  let stripped : List Char :=
    match decoded.data with
    | '/' :: rest => rest
    | l => l
  if jsonDeflateSuffix.data.isSuffixOf stripped then
    ⟨stripped.take (stripped.length - 13)⟩
  else ⟨stripped⟩

/-- C2 counterexample: the code strips ALL leading slashes BEFORE
percent-decoding, the claim strips a single separator AFTER decoding —
`//a` and `%2Fa` separate the two derivations in both directions. -/
theorem key_derivation_counterexample :
    (deriveWord "//a" = "a" ∧ claimDeriveKey "//a" = "/a") ∧
    (deriveWord "%2Fa" = "/a" ∧ claimDeriveKey "%2Fa" = "a") ∧
    deriveWord "//a" ≠ claimDeriveKey "//a" ∧
    deriveWord "%2Fa" ≠ claimDeriveKey "%2Fa" := by
  decide

/-- The corrected pipeline, stated with independent recursions: strip
all leading separators, then percent-decode, then strip the suffix. -/
def stripLeadingSeparators : List Char → List Char
  | [] => []
  | c :: rest => if c = '/' then stripLeadingSeparators rest else c :: rest

def amendedDeriveKey (rawPath : String) : String :=
  let path := unquoteList (stripLeadingSeparators rawPath.data)
  if jsonDeflateSuffix.data.isSuffixOf path then
    ⟨path.take (path.length - 13)⟩
  else ⟨path⟩

theorem dropWhile_eq_stripLeadingSeparators :
    ∀ l : List Char, l.dropWhile (· == '/') = stripLeadingSeparators l := by
  intro l
  induction l with
  | nil => rfl
  | cons c rest ih =>
    by_cases h : c = '/'
    · subst h
      simp [List.dropWhile_cons, stripLeadingSeparators, ih]
    · simp [List.dropWhile_cons, stripLeadingSeparators, h]

/-- C2 amended: for every raw path, the key the code computes equals the
composition strip-all-leading-separators, then percent-decode, then
strip the `.json.deflate` suffix when present; being a function of the
path alone, the same raw path always yields the same key. -/
theorem key_derivation :
    ∀ p : String, deriveWord p = amendedDeriveKey p := by
  intro p
  unfold deriveWord amendedDeriveKey pyUnquote lstripSlash
  rw [dropWhile_eq_stripLeadingSeparators]

/-- Observable startup events of `__main__` (lines 112-146), in program
order: the backend-selection diagnostic prints, the discovery-file write
(line 136-137, content is the decimal port), the `HTTPServer`
construction that binds the listening socket (line 143), the
consumer-facing ready line (line 146), and the `RuntimeError` from
`find_available_port` when no port is free. -/
inductive Event where
  | usedSqlite (entries : Nat)
  | loggedDbFailure
  | loggedNoDb
  | wrotePortFile (content : String)
  | boundServer (port : Nat)
  | printedReady (port : Nat)
  | raisedNoPort
deriving DecidableEq

/-- The process environment startup runs in: whether `dictionary.db`
exists, what `sqlite3.connect` and the `COUNT(*)` query do, and which
ports bind successfully. -/
structure Env where
  dbExists : Bool
  openDb : Except String DBConn
  countEntries : DBConn → Except String Nat
  portFree : Nat → Bool

/-- Lines 112-128: check for `dictionary.db`; if present open it and
count entries; any failure is caught, logged, and leaves
`db_connection = None`. -/
def resolveBackend (e : Env) : Option DBConn × List Event :=
  if e.dbExists then
    match e.openDb with
    | Except.ok c =>
      match e.countEntries c with
      | Except.ok n => (some c, [Event.usedSqlite n])
      | Except.error _ => (none, [Event.loggedDbFailure])
    | Except.error _ => (none, [Event.loggedDbFailure])
  else (none, [Event.loggedNoDb])

/-- Lines 112-146: resolve the backend, find a port, write the
discovery file, construct (bind) the `HTTPServer`, print the ready
line; `none` from the port scan models the fatal `RuntimeError`. -/
def startup (e : Env) : Option DBConn × List Event :=
  let r := resolveBackend e
  match findAvailablePort e.portFree 8000 100 with
  | none => (r.1, r.2 ++ [Event.raisedNoPort])
  | some port =>
    (r.1, r.2 ++ [Event.wrotePortFile (toString port), Event.boundServer port,
                  Event.printedReady port])

def isWriteEvent : Event → Bool
  | Event.wrotePortFile _ => true
  | _ => false

def isBindEvent : Event → Bool
  | Event.boundServer _ => true
  | _ => false

def isReadyEvent : Event → Bool
  | Event.printedReady _ => true
  | _ => false

/-- Claim C1's temporal requirement on a startup trace: every
discovery-file write happens strictly after every socket bind. -/
def writeOnlyAfterBind (t : List Event) : Prop :=
  ∀ i j, (hi : i < t.length) → (hj : j < t.length) →
    isWriteEvent (t.get ⟨i, hi⟩) = true → isBindEvent (t.get ⟨j, hj⟩) = true → j < i

/-- An environment with no database and every port free. -/
def env0 : Env :=
  ⟨false, Except.error "no db", fun _ => Except.error "no db", fun _ => true⟩

/-- C1 counterexample: on a startup where port 8000 is free, the trace
is log, WRITE, BIND, READY — the discovery-file write happens strictly
before the socket bind, refuting "written only after the listening
socket is bound (never before)". -/
theorem readiness_order_counterexample :
    (startup env0).2 = [Event.loggedNoDb, Event.wrotePortFile "8000",
      Event.boundServer 8000, Event.printedReady 8000] ∧
    ¬ writeOnlyAfterBind (startup env0).2 := by
  refine ⟨by decide, fun h => ?_⟩
  exact absurd (h 1 2 (by decide) (by decide) (by decide) (by decide)) (by decide)

theorem resolveBackend_events (e : Env) :
    ∀ ev ∈ (resolveBackend e).2,
      isWriteEvent ev = false ∧ isBindEvent ev = false ∧ isReadyEvent ev = false := by
  unfold resolveBackend
  split
  · split
    · split
      all_goals intro ev hev
      all_goals simp only [List.mem_singleton] at hev
      all_goals subst hev
      all_goals exact ⟨rfl, rfl, rfl⟩
    · intro ev hev
      simp only [List.mem_singleton] at hev
      subst hev
      exact ⟨rfl, rfl, rfl⟩
  · intro ev hev
    simp only [List.mem_singleton] at hev
    subst hev
    exact ⟨rfl, rfl, rfl⟩

/-- C1 amended: whenever a port is found, the startup trace ends with
the discovery-file write (content = the decimal port), then the socket
bind, then the ready line, with no write/bind/ready earlier — so the
file is written BEFORE the socket is bound, and the ready line is
printed only after both the write and the bind. -/
theorem readiness_order :
    ∀ (e : Env) (port : Nat),
      findAvailablePort e.portFree 8000 100 = some port →
      ∃ pre, (startup e).2 = pre ++ [Event.wrotePortFile (toString port),
          Event.boundServer port, Event.printedReady port] ∧
        ∀ ev ∈ pre,
          isWriteEvent ev = false ∧ isBindEvent ev = false ∧ isReadyEvent ev = false := by
  intro e port h
  exact ⟨(resolveBackend e).2, by simp [startup, h], resolveBackend_events e⟩

/-- Witness for C1 amended: the concrete no-database environment where
port 8000 is free. -/
theorem readiness_order_witness :
    ∃ pre, (startup env0).2 = pre ++ [Event.wrotePortFile (toString 8000),
        Event.boundServer 8000, Event.printedReady 8000] ∧
      ∀ ev ∈ pre,
        isWriteEvent ev = false ∧ isBindEvent ev = false ∧ isReadyEvent ev = false :=
  readiness_order env0 8000 (by decide)

/-- An environment whose database file exists but cannot be opened. -/
def env1 : Env :=
  ⟨true, Except.error "corrupt", fun _ => Except.ok 0, fun _ => true⟩

/-- C6: when the database file is absent, or opening it or counting its
entries fails, no connection is kept (file mode), the failure is only
logged, and startup still reaches the ready line whenever a port is
free — the server never fails to start because the database is
unreadable. -/
theorem db_failure_nonfatal :
    ∀ e : Env,
      (e.dbExists = false ∨ (∃ m, e.openDb = Except.error m) ∨
        (∃ c m, e.openDb = Except.ok c ∧ e.countEntries c = Except.error m)) →
      (startup e).1 = none ∧
      (∀ port, findAvailablePort e.portFree 8000 100 = some port →
        Event.printedReady port ∈ (startup e).2) ∧
      (e.dbExists = true → Event.loggedDbFailure ∈ (startup e).2) := by
  intro e h
  have hfst : (startup e).1 = (resolveBackend e).1 := by
    unfold startup
    split <;> rfl
  have hres : (resolveBackend e).1 = none ∧
      (e.dbExists = true → Event.loggedDbFailure ∈ (resolveBackend e).2) := by
    rcases h with h | ⟨m, h⟩ | ⟨c, m, h1, h2⟩
    · simp [resolveBackend, h]
    · rcases hdb : e.dbExists <;> simp [resolveBackend, hdb, h]
    · rcases hdb : e.dbExists <;> simp [resolveBackend, hdb, h1, h2]
  refine ⟨hfst.trans hres.1, fun port hp => ?_, fun hdb => ?_⟩
  · have : (startup e).2 = (resolveBackend e).2 ++ [Event.wrotePortFile (toString port),
        Event.boundServer port, Event.printedReady port] := by
      simp [startup, hp]
    rw [this]
    simp
  · have htail : Event.loggedDbFailure ∈ (resolveBackend e).2 := hres.2 hdb
    unfold startup
    split <;> simp [htail]

/-- Witness for C6: the database file exists but is corrupt; the server
still selects file mode, logs the failure, and reaches ready on 8000. -/
theorem db_failure_nonfatal_witness :
    (startup env1).1 = none ∧
    Event.printedReady 8000 ∈ (startup env1).2 ∧
    Event.loggedDbFailure ∈ (startup env1).2 :=
  have h := db_failure_nonfatal env1 (Or.inr (Or.inl ⟨"corrupt", rfl⟩))
  ⟨h.1, h.2.1 8000 (by decide), h.2.2 rfl⟩

/-- Upper-case hex digit for a value below 16. -/
def hexDigitChar (n : Nat) : Char :=
  if n < 10 then Char.ofNat ('0'.toNat + n) else Char.ofNat ('A'.toNat + n - 10)

/-- Fully percent-encode a character list: every character becomes the
three characters `%`, high hex digit, low hex digit. -/
def pctEncodeList : List Char → List Char
  | [] => []
  | c :: rest =>
    '%' :: hexDigitChar (c.toNat / 16) :: hexDigitChar (c.toNat % 16) :: pctEncodeList rest

/-- Encode a word as a request path: a leading separator, the
percent-encoded word, and optionally the `.json.deflate` suffix. -/
def encodePath (w : String) (withSuffix : Bool) : String :=
  "/" ++ String.mk (pctEncodeList w.data) ++ (if withSuffix then jsonDeflateSuffix else "")

theorem hexVal_hexDigitChar : ∀ n, n < 16 → hexVal (hexDigitChar n) = some n := by decide

theorem unquoteList_escape (h1 h2 : Char) (rest : List Char) (a b : Nat)
    (e1 : hexVal h1 = some a) (e2 : hexVal h2 = some b) :
    unquoteList ('%' :: h1 :: h2 :: rest) = Char.ofNat (16 * a + b) :: unquoteList rest := by
  simp [unquoteList, e1, e2]

theorem unquote_encode_append :
    ∀ (l tail : List Char), (∀ c ∈ l, c.toNat < 256) →
      unquoteList (pctEncodeList l ++ tail) = l ++ unquoteList tail := by
  intro l
  induction l with
  | nil => intro tail _; simp [pctEncodeList]
  | cons c rest ih =>
    intro tail h
    have hc : c.toNat < 256 := h c (List.mem_cons_self c rest)
    have h1 : hexVal (hexDigitChar (c.toNat / 16)) = some (c.toNat / 16) :=
      hexVal_hexDigitChar _ (by omega)
    have h2 : hexVal (hexDigitChar (c.toNat % 16)) = some (c.toNat % 16) :=
      hexVal_hexDigitChar _ (Nat.mod_lt _ (by norm_num))
    calc unquoteList (pctEncodeList (c :: rest) ++ tail)
        = unquoteList ('%' :: hexDigitChar (c.toNat / 16) :: hexDigitChar (c.toNat % 16) ::
            (pctEncodeList rest ++ tail)) := by simp [pctEncodeList]
      _ = Char.ofNat (16 * (c.toNat / 16) + c.toNat % 16) ::
            unquoteList (pctEncodeList rest ++ tail) := unquoteList_escape _ _ _ _ _ h1 h2
      _ = c :: (rest ++ unquoteList tail) := by
            rw [Nat.div_add_mod c.toNat 16, Char.ofNat_toNat,
              ih tail (fun x hx => h x (List.mem_cons_of_mem c hx))]

theorem encodePath_data (w : String) (b : Bool) :
    (encodePath w b).data =
      '/' :: (pctEncodeList w.data ++ (if b then jsonDeflateSuffix.data else [])) := by
  have h1 : ("/" : String).data = ['/'] := rfl
  have h2 : ("" : String).data = [] := rfl
  cases b <;> simp [encodePath, String.data_append, h1, h2]

theorem lstrip_encode (c : Char) (cs t : List Char) :
    (lstripSlash ⟨'/' :: (pctEncodeList (c :: cs) ++ t)⟩).data =
      pctEncodeList (c :: cs) ++ t := by
  simp [lstripSlash, pctEncodeList, List.dropWhile_cons]

theorem unquote_suffix : unquoteList jsonDeflateSuffix.data = jsonDeflateSuffix.data := by
  decide

/-- C7 counterexample: the word `a.json.deflate`, encoded as a path
without appending the suffix, decodes to the key `a`, not back to the
word — the suffix strip in the key derivation eats the word's own tail. -/
theorem encode_decode_roundtrip_counterexample :
    deriveWord (encodePath "a.json.deflate" false) = "a" ∧
    deriveWord (encodePath "a.json.deflate" false) ≠ "a.json.deflate" := by
  refine ⟨by decide, by decide⟩

/-- C7 amended: for every ASCII word `w` that does not itself end in
`.json.deflate`, percent-encoding it as a path — with or without the
suffix — and deriving the key yields `w` back; when `w` does end in
`.json.deflate` the round trip still holds with the suffix appended. -/
theorem encode_decode_roundtrip :
    ∀ w : String, (∀ c ∈ w.data, c.toNat < 128) →
      deriveWord (encodePath w true) = w ∧
      (jsonDeflateSuffix.data.isSuffixOf w.data = false →
        deriveWord (encodePath w false) = w) := by
  intro w hw
  obtain ⟨wd⟩ := w
  rcases wd with _ | ⟨c, cs⟩
  · exact ⟨by decide, fun _ => by decide⟩
  · have h256 : ∀ x ∈ c :: cs, x.toNat < 256 :=
      fun x hx => Nat.lt_trans (hw x hx) (by norm_num)
    constructor
    · have hpath : (pyUnquote (lstripSlash (encodePath ⟨c :: cs⟩ true))).data =
          (c :: cs) ++ jsonDeflateSuffix.data := by
        rw [show lstripSlash (encodePath ⟨c :: cs⟩ true) =
              lstripSlash ⟨'/' :: (pctEncodeList (c :: cs) ++ jsonDeflateSuffix.data)⟩ by
            rw [show encodePath ⟨c :: cs⟩ true =
                  ⟨'/' :: (pctEncodeList (c :: cs) ++ jsonDeflateSuffix.data)⟩ by
              apply String.ext
              simpa using encodePath_data ⟨c :: cs⟩ true]]
        show unquoteList (lstripSlash ⟨'/' :: (pctEncodeList (c :: cs) ++
          jsonDeflateSuffix.data)⟩).data = _
        rw [lstrip_encode, unquote_encode_append (c :: cs) jsonDeflateSuffix.data h256,
          unquote_suffix]
      have hsuf : jsonDeflateSuffix.data.isSuffixOf ((c :: cs) ++ jsonDeflateSuffix.data) =
          true := List.isSuffixOf_iff_suffix.mpr (List.suffix_append _ _)
      have hlen : ((c :: cs) ++ jsonDeflateSuffix.data).length - 13 = (c :: cs).length := by
        simp [List.length_append, show jsonDeflateSuffix.data.length = 13 from rfl]
      unfold deriveWord
      dsimp only
      rw [hpath, if_pos hsuf, hlen, List.take_left' rfl]
    · intro hns
      have hpath : (pyUnquote (lstripSlash (encodePath ⟨c :: cs⟩ false))).data = c :: cs := by
        rw [show lstripSlash (encodePath ⟨c :: cs⟩ false) =
              lstripSlash ⟨'/' :: (pctEncodeList (c :: cs) ++ [])⟩ by
            rw [show encodePath ⟨c :: cs⟩ false =
                  ⟨'/' :: (pctEncodeList (c :: cs) ++ [])⟩ by
              apply String.ext
              simpa using encodePath_data ⟨c :: cs⟩ false]]
        show unquoteList (lstripSlash ⟨'/' :: (pctEncodeList (c :: cs) ++ [])⟩).data = _
        rw [lstrip_encode, unquote_encode_append (c :: cs) [] h256]
        simp [unquoteList]
      have hns' : jsonDeflateSuffix.data.isSuffixOf (c :: cs) = false := hns
      unfold deriveWord
      dsimp only
      rw [hpath, if_neg (by simp [hns'])]
      exact String.ext hpath

/-- Witness for C7 amended: the ASCII word `hi` round-trips both with
and without the suffix. -/
theorem encode_decode_roundtrip_witness :
    deriveWord (encodePath "hi" true) = "hi" ∧
    deriveWord (encodePath "hi" false) = "hi" :=
  have h := encode_decode_roundtrip "hi" (by decide)
  ⟨h.1, h.2 (by decide)⟩

end CorsServer
